import Mathlib

/-!
Verification of the dispatcher core of a media-download chat bot
(`src/bot.py`): the share-token codec (`encode_id` / `decode_id`), the
bounded LIFO job queue, the TTL caches, the search path and the worker
loop.  Python functions are shallowly embedded as executable Lean
definitions; byte strings are `List Nat` (each element a byte value),
character strings are `List Char`.
-/

namespace SpotBot

/-! ### Identifier codec (`encode_id`, `decode_id`, bot.py lines 364-370)

`encode_id(sid)` is `base64.urlsafe_b64encode(sid.encode()).decode().rstrip("=")`;
`decode_id(token)` re-pads the token to a multiple of four characters and
runs `base64.urlsafe_b64decode(token + padding).decode()`.  The embedding
models CPython's `binascii.a2b_base64` in its default non-strict mode
(characters outside the alphabet are skipped; pad characters complete a
quad only from quad position two onward) and models the final `.decode()`
as a UTF-8 validity check on the produced bytes. -/

/-- Alphabet used by `base64.urlsafe_b64encode`: the standard base64
alphabet with `+` and `/` replaced by `-` and `_`. -/
def urlAlphabet : List Char :=
  ['A','B','C','D','E','F','G','H','I','J','K','L','M',
   'N','O','P','Q','R','S','T','U','V','W','X','Y','Z',
   'a','b','c','d','e','f','g','h','i','j','k','l','m',
   'n','o','p','q','r','s','t','u','v','w','x','y','z',
   '0','1','2','3','4','5','6','7','8','9','-','_']

/-- Character emitted for a six-bit group by the url-safe encoder. -/
def b64charUrl (n : Nat) : Char := urlAlphabet.getD n '_'

/-- Decoding table of `binascii.a2b_base64` (standard alphabet: the
url-safe characters have already been translated back by
`urlsafe_b64decode`).  Characters outside the alphabet map to `none`. -/
def b64table (c : Char) : Option Nat :=
  if 'A' ≤ c ∧ c ≤ 'Z' then some (c.toNat - 65)
  else if 'a' ≤ c ∧ c ≤ 'z' then some (c.toNat - 97 + 26)
  else if '0' ≤ c ∧ c ≤ '9' then some (c.toNat - 48 + 52)
  else if c = '+' then some 62
  else if c = '/' then some 63
  else none

/-- Translation performed by `base64.urlsafe_b64decode` before decoding:
`-` becomes `+` and `_` becomes `/`. -/
def translateUrl (c : Char) : Char :=
  if c = '-' then '+' else if c = '_' then '/' else c

/-- Output of `base64.b64encode` on a byte string, padding included:
groups of three bytes become four alphabet characters, a trailing group
of one or two bytes is padded with `=`. -/
def encodeChunks : List Nat → List Char
  | [] => []
  | [b1] => [b64charUrl (b1 / 4), b64charUrl (b1 % 4 * 16), '=', '=']
  | [b1, b2] =>
      [b64charUrl (b1 / 4), b64charUrl (b1 % 4 * 16 + b2 / 16),
       b64charUrl (b2 % 16 * 4), '=']
  | b1 :: b2 :: b3 :: rest =>
      b64charUrl (b1 / 4) :: b64charUrl (b1 % 4 * 16 + b2 / 16) ::
      b64charUrl (b2 % 16 * 4 + b3 / 64) :: b64charUrl (b3 % 64) ::
      encodeChunks rest

/-- Alphabet characters of `encodeChunks`, with the trailing `=` padding
left off. -/
def b64core : List Nat → List Char
  | [] => []
  | [b1] => [b64charUrl (b1 / 4), b64charUrl (b1 % 4 * 16)]
  | [b1, b2] =>
      [b64charUrl (b1 / 4), b64charUrl (b1 % 4 * 16 + b2 / 16),
       b64charUrl (b2 % 16 * 4)]
  | b1 :: b2 :: b3 :: rest =>
      b64charUrl (b1 / 4) :: b64charUrl (b1 % 4 * 16 + b2 / 16) ::
      b64charUrl (b2 % 16 * 4 + b3 / 64) :: b64charUrl (b3 % 64) ::
      b64core rest

/-- Number of `=` padding characters `encodeChunks` appends. -/
def padNeed : List Nat → Nat
  | [] => 0
  | [_] => 2
  | [_, _] => 1
  | _ :: _ :: _ :: rest => padNeed rest

/-- Model of Python's `str.rstrip` restricted to the `=` character. -/
def rstripEq (cs : List Char) : List Char :=
  (cs.reverse.dropWhile (fun c => c = '=')).reverse

/-- Embedding of `encode_id` (bot.py line 364): url-safe base64 of the
identifier's bytes with the trailing `=` padding stripped. -/
def encode_id (bs : List Nat) : List Char :=
  rstripEq (encodeChunks bs)

/-- Re-padding performed by `decode_id` (bot.py line 369):
`padding = "=" * (-len(token) % 4)`. -/
def padToken (tok : List Char) : List Char :=
  tok ++ List.replicate ((4 - tok.length % 4) % 4) '='

/-- Faults `decode_id` can raise: `binascii.Error` from base64 decoding
and `UnicodeDecodeError` from `bytes.decode()`. -/
inductive DecodeFault where
  | binasciiError
  | unicodeDecodeError
  deriving DecidableEq, Repr

/-- Loop of CPython's `binascii.a2b_base64` in non-strict mode.  State:
quad position (0-3), the pending high bits of the next byte, the count
of pending pad characters, and the bytes emitted so far (reversed). -/
def a2bLoop : List Char → Nat → Nat → Nat → List Nat →
    Except DecodeFault (List Nat)
  | [], quad, _, _, acc =>
      if quad = 0 then .ok acc.reverse else .error .binasciiError
  | c :: rest, quad, left, pads, acc =>
      if c = '=' then
        if 2 ≤ quad then
          if 4 ≤ quad + (pads + 1) then .ok acc.reverse
          else a2bLoop rest quad left (pads + 1) acc
        else a2bLoop rest quad left pads acc
      else
        match b64table c with
        | none => a2bLoop rest quad left pads acc
        | some v =>
          match quad with
          | 0 => a2bLoop rest 1 v 0 acc
          | 1 => a2bLoop rest 2 (v % 16) 0 ((left * 4 + v / 16) :: acc)
          | 2 => a2bLoop rest 3 (v % 4) 0 ((left * 16 + v / 4) :: acc)
          | _ => a2bLoop rest 0 0 0 ((left * 64 + v) :: acc)

/-- Continuation-byte test for UTF-8 validation. -/
def isCont (b : Nat) : Bool := 128 ≤ b && b ≤ 191

/-- Transition of the strict UTF-8 acceptor used to model Python's
`bytes.decode()`.  State 0 expects a lead byte; states 1-3 expect that
many generic continuation bytes; states 4-7 expect one range-restricted
continuation byte (after E0, ED, F0 and F4 respectively, which rules
out overlong forms, surrogates and values beyond U+10FFFF). -/
def utf8Step (st b : Nat) : Option Nat :=
  match st with
  | 0 =>
    if b ≤ 127 then some 0
    else if b < 194 then none
    else if b ≤ 223 then some 1
    else if b = 224 then some 4
    else if b = 237 then some 5
    else if b ≤ 239 then some 2
    else if b = 240 then some 6
    else if b ≤ 243 then some 3
    else if b = 244 then some 7
    else none
  | 1 => if isCont b then some 0 else none
  | 2 => if isCont b then some 1 else none
  | 3 => if isCont b then some 2 else none
  | 4 => if 160 ≤ b && b ≤ 191 then some 1 else none
  | 5 => if 128 ≤ b && b ≤ 159 then some 1 else none
  | 6 => if 144 ≤ b && b ≤ 191 then some 2 else none
  | 7 => if 128 ≤ b && b ≤ 143 then some 2 else none
  | _ => none

/-- Run of the UTF-8 acceptor from a state. -/
def utf8Loop : Nat → List Nat → Bool
  | st, [] => st = 0
  | st, b :: r =>
    match utf8Step st b with
    | none => false
    | some st2 => utf8Loop st2 r

/-- Strict UTF-8 validity of a byte string, as checked by Python's
`bytes.decode()`. -/
def utf8Valid (bs : List Nat) : Bool := utf8Loop 0 bs

/-- Embedding of `decode_id` (bot.py lines 368-370): re-pad, translate
the url-safe characters, run the base64 loop, then check the bytes
decode as UTF-8. -/
def decode_id (tok : List Char) : Except DecodeFault (List Nat) :=
  match a2bLoop ((padToken tok).map translateUrl) 0 0 0 [] with
  | .error e => .error e
  | .ok bs => if utf8Valid bs then .ok bs else .error .unicodeDecodeError

/-- Modelled from the spec: the spec's `encode(kind, id)` ("concatenate
`kind` and `id` with a delimiter not permitted inside `id`,
base64url-encode, strip trailing padding").  The source has no such
function; `encode_id` takes a bare identifier.  This definition exists
to compare the spec's description with the source. -/
def encodePair (kind id : List Nat) (delim : Nat) : List Char :=
  encode_id (kind ++ delim :: id)

/-! ### Job queue (bot.py lines 59-60, 622-630)

The queue is `asyncio.LifoQueue(maxsize=QUEUE_MAX_SIZE)`; its state is
the underlying Python list, with `put` appending on the right and `get`
popping from the right.  `enqueue_download` first returns when
`APPLICATION` is unset, then reports "too many downloads" when
`queue.full()` (size at least `maxsize`, since `maxsize` is positive),
and otherwise puts the job; the `full()` check runs immediately before
`put` with no suspension point between, so `put` never blocks. -/

/-- Capacity constant `QUEUE_MAX_SIZE` (bot.py line 59). -/
def QUEUE_MAX_SIZE : Nat := 3

/-- Job dictionary put on the queue (bot.py line 630). -/
structure Job where
  user_id : Nat
  chat_id : Int
  track_id : List Nat
  deriving DecidableEq, Repr

/-- Observable outcome of `enqueue_download`. -/
inductive EnqueueOutcome where
  | noApp
  | rejectedQueueFull
  | accepted
  deriving DecidableEq, Repr

/-- One `put` on the LIFO queue: `asyncio.LifoQueue._put` appends to the
underlying list. -/
def lifoPut (q : List Job) (j : Job) : List Job := q ++ [j]

/-- One `get` from the LIFO queue: `asyncio.LifoQueue._get` pops the
last element of the underlying list. -/
def lifoPop (q : List Job) : Option (Job × List Job) :=
  match q.reverse with
  | [] => none
  | j :: rest => some (j, rest.reverse)

/-- Embedding of `enqueue_download` (bot.py lines 622-630). -/
def enqueue_download (appSet : Bool) (q : List Job) (j : Job) :
    List Job × EnqueueOutcome :=
  if !appSet then (q, .noApp)
  else if QUEUE_MAX_SIZE ≤ q.length then (q, .rejectedQueueFull)
  else (lifoPut q j, .accepted)

/-- Jobs obtained by repeatedly dequeuing until the queue is empty, in
dequeue order. -/
def drainAll (q : List Job) : List Job :=
  match h : lifoPop q with
  | none => []
  | some (j, rest) => j :: drainAll rest
  termination_by q.length
  decreasing_by
    unfold lifoPop at h
    rcases hr : q.reverse with _ | ⟨a, t⟩ <;> rw [hr] at h
    · simp at h
    · simp at h
      have h1 : q.length = t.length + 1 := by
        have := congrArg List.length hr
        simp at this
        omega
      have h2 : t.reverse = rest := h.2
      simp [← h2]
      omega

/-! ### TTL caches (bot.py lines 53-54)

`SEARCH_CACHE = Cache(Cache.MEMORY, ttl=300)` and
`DOWNLOAD_CACHE = Cache(Cache.MEMORY, ttl=86400)` are aiocache
in-memory caches.  An entry set at time `t` with time-to-live `ttl` is
deleted by a timer at `t + ttl`, so a `get` at any time from `t + ttl`
on returns nothing.  The store is modelled as an association list of
key, value and expiry time, newest entry first. -/

/-- Default time-to-live of `SEARCH_CACHE` in seconds (bot.py line 53). -/
def SEARCH_CACHE_TTL : Nat := 300

/-- Default time-to-live of `DOWNLOAD_CACHE` in seconds (bot.py line 54). -/
def DOWNLOAD_CACHE_TTL : Nat := 86400

/-- Store of a TTL cache: entries of key, value and absolute expiry. -/
def CacheStore (κ α : Type) : Type := List (κ × α × Nat)

/-- Cache `set`: records the value with expiry `now + ttl`, shadowing
any previous entry for the key. -/
def cacheSet {κ α : Type} (store : CacheStore κ α) (k : κ) (v : α)
    (now ttl : Nat) : CacheStore κ α :=
  (k, v, now + ttl) :: store

/-- Cache `get` at time `now`: the newest entry for the key, provided
its expiry has not been reached. -/
def cacheGet {κ α : Type} [DecidableEq κ] (store : CacheStore κ α)
    (k : κ) (now : Nat) : Option α :=
  match store.find? (fun e => e.1 = k) with
  | some (_, v, exp) => if now < exp then some v else none
  | none => none

/-- Cache `delete`: removes all entries for the key. -/
def cacheDelete {κ α : Type} [DecidableEq κ] (store : CacheStore κ α)
    (k : κ) : CacheStore κ α :=
  store.filter (fun e => e.1 ≠ k)

/-! ### Search path (bot.py lines 415-428, 544-566, 577-587)

`search_spotify` calls the Spotify client `sp.search` and reshapes the
returned items; the call is not wrapped in any `try`, so a provider
failure propagates to the caller.  The provider response is passed in
explicitly as an `Except`.  `send_search_results` and
`handle_inline_query` share the cache discipline `if cached: ... else:
search and set`, keyed by user id and query; Python truthiness makes a
cached empty list take the `else` branch. -/

/-- Failure of the external search provider. -/
inductive ProviderError where
  | network
  | auth
  deriving DecidableEq, Repr

/-- Fields of a raw Spotify track item read by `search_spotify`. -/
structure SpotTrack where
  id : List Char
  name : List Char
  artistNames : List (List Char)
  url : List Char
  albumImages : List (List Char)
  deriving DecidableEq, Repr

/-- Result dictionary built by `search_spotify` (bot.py lines 419-427). -/
structure TrackItem where
  id : List Char
  title : List Char
  artists : List Char
  url : List Char
  thumb : Option (List Char)
  deriving DecidableEq, Repr

/-- Python's `", ".join` on a list of names. -/
def joinComma : List (List Char) → List Char
  | [] => []
  | [s] => s
  | s :: rest => s ++ ',' :: ' ' :: joinComma rest

/-- Embedding of `search_spotify` (bot.py lines 415-428), parametrized
by the provider's response: on success the items are reshaped, on
failure the exception propagates unchanged. -/
def search_spotify (resp : Except ProviderError (List SpotTrack)) :
    Except ProviderError (List TrackItem) :=
  match resp with
  | .error e => .error e
  | .ok items =>
      .ok (items.map fun it =>
        ⟨it.id, it.name, joinComma it.artistNames, it.url,
         it.albumImages.head?⟩)

/-- Cache key used by the search handlers: user id and query
(the f-string key `uid:query` separates the two unambiguously, since a
user id contains no colon). -/
def searchKey (uid : Nat) (query : List Char) : Nat × List Char :=
  (uid, query)

/-- Shared cache discipline of `send_search_results` (bot.py lines
547-552) and `handle_inline_query` (lines 582-587): look up the user's
query; a truthy cached value (a nonempty list) is served; otherwise the
provider result `fresh` is used and written back with the search
cache's default TTL.  Returns the results served, whether the provider
was invoked, and the updated store. -/
def searchCacheStep (store : CacheStore (Nat × List Char) (List TrackItem))
    (uid : Nat) (query : List Char) (now : Nat) (fresh : List TrackItem) :
    List TrackItem × Bool × CacheStore (Nat × List Char) (List TrackItem) :=
  match cacheGet store (searchKey uid query) now with
  | some cached =>
      if cached.isEmpty then
        (fresh, true, cacheSet store (searchKey uid query) fresh now SEARCH_CACHE_TTL)
      else (cached, false, store)
  | none =>
      (fresh, true, cacheSet store (searchKey uid query) fresh now SEARCH_CACHE_TTL)

/-! ### Worker loop, single iteration (bot.py lines 701-736)

The worker dequeues a job, looks the track up in `DOWNLOAD_CACHE` and
uses the cached path only when the file still exists (`if cached and
Path(cached).exists()`); otherwise it calls `download_track` inside a
`try` whose handler logs, reports "download failed" and continues.  The
subsequent delivery (`file_path.open` and `bot.send_audio`) is not
guarded: an exception there propagates out of `worker()` and ends the
worker task.  On successful delivery the file is unlinked and the cache
entry deleted.  External effects are passed in through `WorkerEnv`. -/

/-- Whether the worker coroutine survives the iteration. -/
inductive WorkerFate where
  | continues
  | crashed
  deriving DecidableEq, Repr

/-- Environment of one worker iteration: the `DOWNLOAD_CACHE.get`
result for the job's track, the filesystem, the `download_track`
outcome, and whether `send_audio` succeeds. -/
structure WorkerEnv where
  cached : Option (List Char)
  pathExists : List Char → Bool
  fetched : Except Unit (List Char)
  deliverOk : Bool

/-- Observable outcome of one worker iteration. -/
structure WorkerOut where
  fate : WorkerFate
  fetchInvoked : Bool
  failureReported : Bool
  usedCachedFile : Bool
  cacheDeleted : Bool
  cacheWrote : Option (List Char)
  deriving DecidableEq, Repr

/-- Delivery tail of the iteration, reached with a file path in hand:
`cacheWrote` records a `DOWNLOAD_CACHE.set` already performed on the
fetch path. -/
def workerDeliver (env : WorkerEnv) (fetchInvoked usedCachedFile : Bool)
    (wrote : Option (List Char)) : WorkerOut :=
  if env.deliverOk then
    ⟨.continues, fetchInvoked, false, usedCachedFile, true, wrote⟩
  else
    ⟨.crashed, fetchInvoked, false, usedCachedFile, false, wrote⟩

/-- Fetch path of the iteration (bot.py lines 713-722): `download_track`
failure is caught, logged and reported, and the loop continues; on
success the path is cached and delivery follows. -/
def workerFetch (env : WorkerEnv) : WorkerOut :=
  match env.fetched with
  | .error _ => ⟨.continues, true, true, false, false, none⟩
  | .ok fp => workerDeliver env true false (some fp)

/-- Embedding of one iteration of `worker` (bot.py lines 701-736). -/
def workerIteration (env : WorkerEnv) : WorkerOut :=
  match env.cached with
  | some p =>
      if !p.isEmpty && env.pathExists p then
        workerDeliver env false true none
      else workerFetch env
  | none => workerFetch env

/-! ### Two workers racing on the same track (bot.py lines 701-736)

Two workers each hold a job for the same track and run the loop body
concurrently.  The atomic segments between real suspension points are:
the cache check (ending either at the cache hit's `send_audio` await or
at the `download_track` thread await), fetch completion followed by
`DOWNLOAD_CACHE.set` and the start of `send_audio`, and delivery
completion followed by unlink and `DOWNLOAD_CACHE.delete`.  Fetch and
delivery are taken to succeed; both jobs name the same track and hence
the same download path.  Program counters: 0 = about to check the
cache, 1 = fetching, 2 = sending, 3 = done. -/

/-- Download path of the shared track. -/
def pathP : List Char := ['p']

/-- Shared mutable state of the two workers: the `DOWNLOAD_CACHE` entry
for the track, whether the downloaded file exists, and the number of
`download_track` invocations so far. -/
structure SharedState where
  dcache : Option (List Char)
  fileP : Bool
  fetchCount : Nat
  deriving DecidableEq, Repr

/-- Advance one worker by one atomic segment. -/
def workerAdvance (pc : Nat) (sh : SharedState) : Nat × SharedState :=
  match pc with
  | 0 =>
      match sh.dcache with
      | some p =>
          if !p.isEmpty && sh.fileP then (2, sh)
          else (1, { sh with fetchCount := sh.fetchCount + 1 })
      | none => (1, { sh with fetchCount := sh.fetchCount + 1 })
  | 1 => (2, { sh with fileP := true, dcache := some pathP })
  | 2 => (3, { sh with fileP := false, dcache := none })
  | _ => (pc, sh)

/-- Joint state of the two workers. -/
structure RaceState where
  pc1 : Nat
  pc2 : Nat
  shared : SharedState
  deriving DecidableEq, Repr

/-- One scheduler step: `false` advances worker one, `true` worker two. -/
def raceStep (pick2 : Bool) (s : RaceState) : RaceState :=
  if pick2 then
    let r := workerAdvance s.pc2 s.shared
    ⟨s.pc1, r.1, r.2⟩
  else
    let r := workerAdvance s.pc1 s.shared
    ⟨r.1, s.pc2, r.2⟩

/-- Initial state: both workers hold a job for the track, the cache is
empty and the file absent. -/
def raceInit : RaceState := ⟨0, 0, ⟨none, false, 0⟩⟩

/-- Run the two workers under a schedule. -/
def raceRun (sched : List Bool) : RaceState :=
  sched.foldl (fun s b => raceStep b s) raceInit

/-- Schedule running worker one to completion before worker two starts
(the second job arrives after the first finished). -/
def seqSched : List Bool := [false, false, false, true, true, true]

/-- Schedule where the second worker's cache check falls between the
first worker's cache write and its post-delivery cleanup. -/
def dedupSched : List Bool := [false, false, true, false, true]

/-- Per-worker contribution to the fetch-count bound: a worker past its
cache check can have invoked the fetcher at most once. -/
def fetchBound (pc : Nat) : Nat := if 1 ≤ pc then 1 else 0

/-- Concrete jobs for witnesses. -/
def jobA : Job := ⟨1, 10, [97]⟩

/-- Second concrete job. -/
def jobB : Job := ⟨2, 20, [98]⟩

/-- Third concrete job. -/
def jobC : Job := ⟨3, 30, [99]⟩

/-! ### Helper lemmas: codec -/

/-- The encoder never emits the pad character. -/
theorem b64charUrl_ne_pad (n : Nat) : b64charUrl n ≠ '=' := by
  unfold b64charUrl
  rcases Nat.lt_or_ge n 64 with h | h
  · exact (by decide : ∀ m < 64, urlAlphabet.getD m '_' ≠ '=') n h
  · rw [List.getD_eq_default]
    · decide
    · have : urlAlphabet.length = 64 := by decide
      omega

/-- Decoding inverts encoding on each six-bit group. -/
theorem tableUrl_inv : ∀ n < 64, b64table (translateUrl (b64charUrl n)) = some n := by
  decide

/-- Encoded characters survive url-translation without becoming pads. -/
theorem tableUrl_ne_pad : ∀ n < 64, translateUrl (b64charUrl n) ≠ '=' := by
  decide

/-- The pad character is outside the decoding table. -/
theorem b64table_pad : b64table '=' = none := by decide

/-- Url-translation maps the pad character to itself. -/
theorem translateUrl_pad : translateUrl '=' = '=' := by decide

/-- Only the pad character translates to the pad character. -/
theorem translateUrl_eq_pad {c : Char} (h : translateUrl c = '=') : c = '=' := by
  unfold translateUrl at h
  by_cases h1 : c = '-'
  · rw [if_pos h1] at h; exact absurd h (by decide)
  · rw [if_neg h1] at h
    by_cases h2 : c = '_'
    · rw [if_pos h2] at h; exact absurd h (by decide)
    · rwa [if_neg h2] at h

/-- Unfolding of the base64 output into alphabet core plus padding. -/
theorem encodeChunks_eq_core_pad (bs : List Nat) :
    encodeChunks bs = b64core bs ++ List.replicate (padNeed bs) '=' := by
  induction bs using encodeChunks.induct with
  | case1 => simp [encodeChunks, b64core, padNeed]
  | case2 b1 => simp [encodeChunks, b64core, padNeed]
  | case3 b1 b2 => simp [encodeChunks, b64core, padNeed]
  | case4 b1 b2 b3 rest ih => simp [encodeChunks, b64core, padNeed, ih]

/-- The alphabet core contains no pad characters. -/
theorem core_ne_pad (bs : List Nat) : ∀ c ∈ b64core bs, c ≠ '=' := by
  induction bs using b64core.induct with
  | case1 => simp [b64core]
  | case2 b1 =>
      simp [b64core]
      exact ⟨b64charUrl_ne_pad _, b64charUrl_ne_pad _⟩
  | case3 b1 b2 =>
      simp [b64core]
      exact ⟨b64charUrl_ne_pad _, b64charUrl_ne_pad _, b64charUrl_ne_pad _⟩
  | case4 b1 b2 b3 rest ih =>
      simp [b64core]
      refine ⟨b64charUrl_ne_pad _, b64charUrl_ne_pad _, b64charUrl_ne_pad _,
        b64charUrl_ne_pad _, ?_⟩
      intro c hc
      exact ih c hc

/-- Stripping trailing pads from a pad-free core plus padding recovers
the core. -/
theorem rstripEq_append_rep (xs : List Char) (k : Nat)
    (h : ∀ c ∈ xs, c ≠ '=') :
    rstripEq (xs ++ List.replicate k '=') = xs := by
  unfold rstripEq
  rw [List.reverse_append, List.reverse_replicate]
  have hdrop : ∀ m : Nat, ∀ t : List Char,
      (List.replicate m '=' ++ t).dropWhile (fun c => c = '=') =
        t.dropWhile (fun c => c = '=') := by
    intro m
    induction m with
    | zero => intro t; simp
    | succ m ih => intro t; simp [List.replicate, List.dropWhile, ih]
  rw [hdrop]
  have : xs.reverse.dropWhile (fun c => c = '=') = xs.reverse := by
    cases hx : xs.reverse with
    | nil => simp
    | cons c t =>
        have hc : c ∈ xs := by
          have : c ∈ xs.reverse := by rw [hx]; exact List.mem_cons_self _ _
          simpa using this
        rw [List.dropWhile_cons]
        simp [h c hc]
  rw [this, List.reverse_reverse]

/-- On byte strings, `rstrip` of the padded base64 yields the core. -/
theorem rstrip_core (bs : List Nat) : rstripEq (encodeChunks bs) = b64core bs := by
  rw [encodeChunks_eq_core_pad]
  exact rstripEq_append_rep _ _ (core_ne_pad bs)

/-- The re-padding count matches the stripped padding count. -/
theorem padNeed_core (bs : List Nat) :
    (4 - (b64core bs).length % 4) % 4 = padNeed bs := by
  induction bs using b64core.induct with
  | case1 => simp [b64core, padNeed]
  | case2 b1 => simp [b64core, padNeed]
  | case3 b1 b2 => simp [b64core, padNeed]
  | case4 b1 b2 b3 rest ih =>
      simp only [b64core, padNeed, List.length_cons]
      omega

/-- Re-padding a byte string's stripped base64 restores the padding. -/
theorem padToken_core (bs : List Nat) :
    padToken (b64core bs) = encodeChunks bs := by
  unfold padToken
  rw [padNeed_core, encodeChunks_eq_core_pad]

/-- One decoder step on a data character at quad position 0. -/
theorem a2bLoop_step0 {c : Char} {v : Nat} (rest : List Char)
    (left pads : Nat) (acc : List Nat) (hv : b64table c = some v) :
    a2bLoop (c :: rest) 0 left pads acc = a2bLoop rest 1 v 0 acc := by
  have hc : ¬ c = '=' := by
    intro e; rw [e, b64table_pad] at hv; exact Option.noConfusion hv
  simp [a2bLoop, hc, hv]

/-- One decoder step on a data character at quad position 1. -/
theorem a2bLoop_step1 {c : Char} {v : Nat} (rest : List Char)
    (left pads : Nat) (acc : List Nat) (hv : b64table c = some v) :
    a2bLoop (c :: rest) 1 left pads acc =
      a2bLoop rest 2 (v % 16) 0 ((left * 4 + v / 16) :: acc) := by
  have hc : ¬ c = '=' := by
    intro e; rw [e, b64table_pad] at hv; exact Option.noConfusion hv
  simp [a2bLoop, hc, hv]

/-- One decoder step on a data character at quad position 2. -/
theorem a2bLoop_step2 {c : Char} {v : Nat} (rest : List Char)
    (left pads : Nat) (acc : List Nat) (hv : b64table c = some v) :
    a2bLoop (c :: rest) 2 left pads acc =
      a2bLoop rest 3 (v % 4) 0 ((left * 16 + v / 4) :: acc) := by
  have hc : ¬ c = '=' := by
    intro e; rw [e, b64table_pad] at hv; exact Option.noConfusion hv
  simp [a2bLoop, hc, hv]

/-- One decoder step on a data character at quad position 3. -/
theorem a2bLoop_step3 {c : Char} {v : Nat} (rest : List Char)
    (left pads : Nat) (acc : List Nat) (hv : b64table c = some v) :
    a2bLoop (c :: rest) 3 left pads acc =
      a2bLoop rest 0 0 0 ((left * 64 + v) :: acc) := by
  have hc : ¬ c = '=' := by
    intro e; rw [e, b64table_pad] at hv; exact Option.noConfusion hv
  simp [a2bLoop, hc, hv]

/-- A pad character that completes a quad ends decoding successfully. -/
theorem a2bLoop_pad_done (rest : List Char) (quad left pads : Nat)
    (acc : List Nat) (h2 : 2 ≤ quad) (h4 : 4 ≤ quad + (pads + 1)) :
    a2bLoop ('=' :: rest) quad left pads acc = .ok acc.reverse := by
  simp [a2bLoop, h2, h4]

/-- A pad character that does not yet complete a quad is counted. -/
theorem a2bLoop_pad_cont (rest : List Char) (quad left pads : Nat)
    (acc : List Nat) (h2 : 2 ≤ quad) (h4 : quad + (pads + 1) < 4) :
    a2bLoop ('=' :: rest) quad left pads acc =
      a2bLoop rest quad left (pads + 1) acc := by
  simp [a2bLoop, h2]
  omega

/-- End of input at quad position 0 succeeds. -/
theorem a2bLoop_nil (left pads : Nat) (acc : List Nat) :
    a2bLoop [] 0 left pads acc = .ok acc.reverse := by
  simp [a2bLoop]

/-- Decoding the translated base64 of a byte string recovers the bytes,
from any pending-pad and left-bits state at quad position 0. -/
theorem a2b_encode (bs : List Nat) (h : ∀ b ∈ bs, b < 256) :
    ∀ (left pads : Nat) (acc : List Nat),
      a2bLoop ((encodeChunks bs).map translateUrl) 0 left pads acc =
        .ok (acc.reverse ++ bs) := by
  induction bs using encodeChunks.induct with
  | case1 =>
      intro left pads acc
      simp [encodeChunks, a2bLoop]
  | case2 b1 =>
      intro left pads acc
      have hb1 : b1 < 256 := h b1 (by simp)
      simp only [encodeChunks, List.map]
      rw [a2bLoop_step0 _ _ _ _ (tableUrl_inv _ (by omega)),
          a2bLoop_step1 _ _ _ _ (tableUrl_inv _ (by omega)),
          translateUrl_pad,
          a2bLoop_pad_cont _ _ _ _ _ (by omega) (by omega),
          a2bLoop_pad_done _ _ _ _ _ (by omega) (by omega)]
      have e1 : b1 / 4 * 4 + b1 % 4 * 16 / 16 = b1 := by omega
      rw [e1, List.reverse_cons]
  | case3 b1 b2 =>
      intro left pads acc
      have hb1 : b1 < 256 := h b1 (by simp)
      have hb2 : b2 < 256 := h b2 (by simp)
      simp only [encodeChunks, List.map]
      rw [a2bLoop_step0 _ _ _ _ (tableUrl_inv _ (by omega)),
          a2bLoop_step1 _ _ _ _ (tableUrl_inv _ (by omega)),
          a2bLoop_step2 _ _ _ _ (tableUrl_inv _ (by omega)),
          translateUrl_pad,
          a2bLoop_pad_done _ _ _ _ _ (by omega) (by omega)]
      have e1 : b1 / 4 * 4 + (b1 % 4 * 16 + b2 / 16) / 16 = b1 := by omega
      have e2 : (b1 % 4 * 16 + b2 / 16) % 16 * 16 + b2 % 16 * 4 / 4 = b2 := by
        omega
      rw [e1, e2]
      simp
  | case4 b1 b2 b3 rest ih =>
      intro left pads acc
      have hb1 : b1 < 256 := h b1 (by simp)
      have hb2 : b2 < 256 := h b2 (by simp)
      have hb3 : b3 < 256 := h b3 (by simp)
      have hrest : ∀ b ∈ rest, b < 256 := by
        intro b hb; exact h b (by simp [hb])
      simp only [encodeChunks, List.map]
      rw [a2bLoop_step0 _ _ _ _ (tableUrl_inv _ (by omega)),
          a2bLoop_step1 _ _ _ _ (tableUrl_inv _ (by omega)),
          a2bLoop_step2 _ _ _ _ (tableUrl_inv _ (by omega)),
          a2bLoop_step3 _ _ _ _ (tableUrl_inv _ (by omega)),
          ih hrest]
      have e1 : b1 / 4 * 4 + (b1 % 4 * 16 + b2 / 16) / 16 = b1 := by omega
      have e2 : (b1 % 4 * 16 + b2 / 16) % 16 * 16 +
          (b2 % 16 * 4 + b3 / 64) / 4 = b2 := by omega
      have e3 : (b2 % 16 * 4 + b3 / 64) % 4 * 64 + b3 % 64 = b3 := by omega
      rw [e1, e2, e3]
      simp

/-- The alphabet core of a byte string of length at least two has at
least three characters. -/
theorem core_len_ge3 (bs : List Nat) (h : 2 ≤ bs.length) :
    3 ≤ (b64core bs).length := by
  match bs with
  | [] => simp at h
  | [b1] => simp at h
  | [b1, b2] => simp [b64core]
  | b1 :: b2 :: b3 :: rest => simp [b64core]

/-- Characters that the decoder skips leave the state untouched at quad
position 0, so a token of only skippable characters decodes to nothing. -/
theorem a2b_skip (cs : List Char)
    (h : ∀ c ∈ cs, c = '=' ∨ b64table c = none) :
    ∀ (left pads : Nat) (acc : List Nat),
      a2bLoop cs 0 left pads acc = .ok acc.reverse := by
  induction cs with
  | nil => intro left pads acc; simp [a2bLoop]
  | cons c rest ih =>
      intro left pads acc
      have hrest : ∀ c ∈ rest, c = '=' ∨ b64table c = none := by
        intro d hd; exact h d (by simp [hd])
      rcases h c (by simp) with hc | hc
      · subst hc
        rw [show a2bLoop ('=' :: rest) 0 left pads acc =
              a2bLoop rest 0 left pads acc by simp [a2bLoop]]
        exact ih hrest left pads acc
      · by_cases he : c = '='
        · subst he
          rw [show a2bLoop ('=' :: rest) 0 left pads acc =
                a2bLoop rest 0 left pads acc by simp [a2bLoop]]
          exact ih hrest left pads acc
        · rw [show a2bLoop (c :: rest) 0 left pads acc =
                a2bLoop rest 0 left pads acc by simp [a2bLoop, he, hc]]
          exact ih hrest left pads acc

/-! ### Claim theorems -/

/-- C2 counterexample: the spec describes `encode` as base64 of `kind`
and `id` joined by a delimiter, but no choice of nonempty kind,
delimiter byte and id produces the token the program emits for the
one-byte identifier `a` (byte 97): the program encodes the bare
identifier, so its token is too short to hold any delimiter-joined
pair. -/
theorem codec_pair_counterexample :
    ¬ ∃ (kind id : List Nat) (delim : Nat), kind ≠ [] ∧
      encodePair kind id delim = encode_id [97] := by
  rintro ⟨kind, id, delim, hk, heq⟩
  have h1 : encodePair kind id delim = b64core (kind ++ delim :: id) := by
    unfold encodePair encode_id
    exact rstrip_core _
  have h2 : encode_id [97] = b64core [97] := by
    unfold encode_id
    exact rstrip_core _
  have hlen2 : (b64core [97]).length = 2 := by decide
  have hge : 2 ≤ (kind ++ delim :: id).length := by
    rcases kind with _ | ⟨k, ks⟩
    · exact absurd rfl hk
    · simp
      omega
  have h3 := core_len_ge3 (kind ++ delim :: id) hge
  rw [h1, h2] at heq
  have := congrArg List.length heq
  omega

/-- C2 (amended): the program's codec carries no kind tag and no
delimiter; `encode_id` base64url-encodes the bare identifier's bytes
and strips the trailing padding, and for every identifier (a byte
string, valid UTF-8 as produced by Python's `str.encode`),
`decode_id` of its token returns exactly the identifier. -/
theorem codec_roundtrip (bs : List Nat) (hb : ∀ b ∈ bs, b < 256)
    (hu : utf8Valid bs = true) :
    decode_id (encode_id bs) = .ok bs := by
  unfold decode_id encode_id
  rw [rstrip_core, padToken_core, a2b_encode bs hb 0 0 []]
  simp [hu]

/-- C2 witness: the round trip evaluated on the identifier `abc`
(bytes 97, 98, 99). -/
theorem codec_roundtrip_witness :
    (∀ b ∈ [97, 98, 99], b < 256) ∧ utf8Valid [97, 98, 99] = true ∧
      decode_id (encode_id [97, 98, 99]) = .ok [97, 98, 99] :=
  ⟨by decide, by decide, codec_roundtrip [97, 98, 99] (by decide) (by decide)⟩

/-- C3 counterexample: the token `$$$$` is malformed (every character
is outside the base64url alphabet), yet `decode_id` does not fail: the
decoder silently discards the invalid characters and returns the empty
string. -/
theorem decode_malformed_counterexample :
    decode_id ['$', '$', '$', '$'] = .ok [] := by rfl

/-- C3 (amended): `decode_id` has no delimiter or kind check and no
dedicated decode error; characters outside the alphabet are silently
discarded rather than rejected (a token of only such characters decodes
to the empty string), and the only failures are the raw faults of the
underlying decoders: `binascii.Error` when the surviving data
characters cannot form whole bytes (for example a single data
character, or three data characters without padding), and
`UnicodeDecodeError` when the decoded bytes are not valid UTF-8. -/
theorem decode_malformed_amended :
    decode_id ['$', '$', '$', '$'] = .ok [] ∧
    decode_id ['a'] = .error .binasciiError ∧
    decode_id ['a', 'b', 'c', '!'] = .error .binasciiError ∧
    decode_id ['w', 'A'] = .error .unicodeDecodeError ∧
    ∀ tok : List Char,
      (∀ c ∈ tok, c ≠ '=' ∧ b64table (translateUrl c) = none) →
      decode_id tok = .ok [] := by
  refine ⟨by rfl, by rfl, by rfl, by rfl, ?_⟩
  intro tok h
  unfold decode_id
  have hall : ∀ d ∈ (padToken tok).map translateUrl,
      d = '=' ∨ b64table d = none := by
    intro d hd
    rcases List.mem_map.mp hd with ⟨c, hc, hdc⟩
    unfold padToken at hc
    rcases List.mem_append.mp hc with hc | hc
    · right
      rw [← hdc]
      exact (h c hc).2
    · left
      rw [← hdc, List.eq_of_mem_replicate hc, translateUrl_pad]
  rw [a2b_skip _ hall 0 0 []]
  simp [utf8Valid, utf8Loop]

/-- C3 amended-claim witness: the single-character malformed token `%`
satisfies the invalid-alphabet hypothesis and decodes to the empty
string. -/
theorem decode_malformed_amended_witness :
    (∀ c ∈ ['%'], c ≠ '=' ∧ b64table (translateUrl c) = none) ∧
      decode_id ['%'] = .ok [] :=
  ⟨by decide, decode_malformed_amended.2.2.2.2 ['%'] (by decide)⟩

/-- C4: with the application set, submitting a job while the queue
already holds `QUEUE_MAX_SIZE` jobs is rejected as queue-full and the
queue is unchanged; submitting while the queue holds fewer jobs appends
the job and is accepted.  The embedding is a total function, matching
the source's non-suspending `full()` check before `put`. -/
theorem enqueue_capacity (q : List Job) (j : Job) :
    (q.length = QUEUE_MAX_SIZE →
      enqueue_download true q j = (q, .rejectedQueueFull)) ∧
    (q.length < QUEUE_MAX_SIZE →
      enqueue_download true q j = (lifoPut q j, .accepted)) := by
  constructor
  · intro h
    simp [enqueue_download, h]
  · intro h
    simp [enqueue_download]
    omega

/-- C4 witness: a full queue of three jobs rejects, the empty queue
accepts. -/
theorem enqueue_capacity_witness :
    ([jobA, jobB, jobC].length = QUEUE_MAX_SIZE ∧
      enqueue_download true [jobA, jobB, jobC] jobA =
        ([jobA, jobB, jobC], .rejectedQueueFull)) ∧
    (([] : List Job).length < QUEUE_MAX_SIZE ∧
      enqueue_download true [] jobA = (lifoPut [] jobA, .accepted)) :=
  ⟨⟨by decide, (enqueue_capacity [jobA, jobB, jobC] jobA).1 (by decide)⟩,
   ⟨by decide, (enqueue_capacity [] jobA).2 (by decide)⟩⟩

/-- Folding `put` over the underlying list appends the jobs in order. -/
theorem foldl_lifoPut (xs : List Job) : ∀ q, xs.foldl lifoPut q = q ++ xs := by
  induction xs with
  | nil => intro q; simp
  | cons x xs ih => intro q; simp [lifoPut, ih]

/-- Draining the LIFO queue yields the underlying list reversed. -/
theorem drainAll_reverse (q : List Job) : drainAll q = q.reverse := by
  induction q using List.reverseRecOn with
  | nil =>
      rw [drainAll]
      simp [lifoPop]
  | append_singleton ys y ih =>
      rw [drainAll]
      have hpop : lifoPop (ys ++ [y]) = some (y, ys) := by
        simp [lifoPop]
      rw [hpop]
      simp [ih]

/-- C5: jobs enqueued with no interleaved dequeues are dequeued in
last-in-first-out order; in particular enqueuing jobs A, B, C dequeues
C, B, A. -/
theorem lifo_order :
    (∀ xs : List Job, drainAll (xs.foldl lifoPut []) = xs.reverse) ∧
    drainAll ([jobA, jobB, jobC].foldl lifoPut []) = [jobC, jobB, jobA] := by
  have hgen : ∀ xs : List Job, drainAll (xs.foldl lifoPut []) = xs.reverse := by
    intro xs
    rw [foldl_lifoPut, List.nil_append, drainAll_reverse]
  exact ⟨hgen, by rw [hgen]; rfl⟩

/-- C6: evaluation of the worker iteration at the failing input.  A job
whose download succeeds but whose delivery fails (for example the
recipient has blocked the bot, so `send_audio` raises) crashes the
worker: the exception propagates out of the unguarded delivery code.  A
download failure, by contrast, is caught: the worker logs, reports and
continues. -/
theorem worker_delivery_crash :
    workerIteration ⟨none, fun _ => false, .ok ['p'], false⟩ =
      ⟨.crashed, true, false, false, false, some ['p']⟩ ∧
    workerIteration ⟨none, fun _ => false, .error (), true⟩ =
      ⟨.continues, true, true, false, false, none⟩ :=
  ⟨rfl, rfl⟩

/-- C7 counterexample: when the provider fails, `search_spotify` does
not return an empty result sequence — the call is not guarded. -/
theorem search_error_counterexample :
    search_spotify (.error ProviderError.network) ≠ .ok [] := by
  simp [search_spotify]

/-- C7 (amended): when the external provider fails, `search_spotify`
propagates the provider's exception unchanged to its caller; no
empty-result fallback and no logging happen on the search path. -/
theorem search_error_amended :
    ∀ e : ProviderError, search_spotify (.error e) = .error e :=
  fun _ => rfl

/-- C8: the search cache's default time-to-live is 300 seconds, the
download cache's is 86400 seconds, and a `get` performed at or after
the expiry of an entry returns nothing. -/
theorem cache_ttl :
    SEARCH_CACHE_TTL = 300 ∧ DOWNLOAD_CACHE_TTL = 86400 ∧
    ∀ (κ α : Type) [DecidableEq κ] (store : CacheStore κ α) (k : κ)
      (v : α) (t ttl now : Nat), t + ttl ≤ now →
        cacheGet (cacheSet store k v t ttl) k now = none := by
  refine ⟨rfl, rfl, ?_⟩
  intro κ α inst store k v t ttl now h
  simp [cacheGet, cacheSet, List.find?]
  omega

/-- C8 witness: an entry set at time 0 in the search cache is absent at
time 300. -/
theorem cache_ttl_witness :
    0 + SEARCH_CACHE_TTL ≤ 300 ∧
      cacheGet (cacheSet ([] : CacheStore Nat Nat) 0 1 0 SEARCH_CACHE_TTL)
        0 300 = none :=
  ⟨by decide, cache_ttl.2.2 Nat Nat [] 0 1 0 SEARCH_CACHE_TTL 300 (by decide)⟩

/-- C9: the worker uses a cached artifact only when the referenced file
still exists; when the file has been removed, the cache entry is
ignored (whatever its remaining time-to-live — the entry was still
live, since `DOWNLOAD_CACHE.get` returned it) and a fresh fetch is
performed. -/
theorem worker_cache_file_check :
    (∀ (env : WorkerEnv) (p : List Char), env.cached = some p →
      env.pathExists p = false → (workerIteration env).fetchInvoked = true) ∧
    (∀ env : WorkerEnv, (workerIteration env).usedCachedFile = true →
      ∃ p, env.cached = some p ∧ env.pathExists p = true) := by
  constructor
  · intro env p hc hx
    have hfetch : (workerFetch env).fetchInvoked = true := by
      unfold workerFetch workerDeliver
      rcases env.fetched with _ | fp
      · rfl
      · by_cases hd : env.deliverOk <;> simp [hd]
    simp [workerIteration, hc, hx, hfetch]
  · intro env h
    have hfetch : (workerFetch env).usedCachedFile = false := by
      unfold workerFetch workerDeliver
      rcases env.fetched with _ | fp
      · rfl
      · by_cases hd : env.deliverOk <;> simp [hd]
    rcases hc : env.cached with _ | p
    · simp [workerIteration, hc, hfetch] at h
    · by_cases hcond : (!p.isEmpty && env.pathExists p) = true
      · have h2 := hcond
        simp at h2
        exact ⟨p, rfl, h2.2⟩
      · simp [workerIteration, hc, hcond, hfetch] at h

/-- C9 witness: a cache entry whose file is gone leads to a fetch. -/
theorem worker_cache_file_check_witness :
    (WorkerEnv.mk (some ['p']) (fun _ => false) (.ok ['p']) true).cached
        = some ['p'] ∧
    (WorkerEnv.mk (some ['p']) (fun _ => false) (.ok ['p']) true).pathExists
        ['p'] = false ∧
    (workerIteration
        (WorkerEnv.mk (some ['p']) (fun _ => false) (.ok ['p']) true)).fetchInvoked
      = true :=
  ⟨rfl, rfl,
    worker_cache_file_check.1
      (WorkerEnv.mk (some ['p']) (fun _ => false) (.ok ['p']) true)
      ['p'] rfl rfl⟩

/-- C10: a cached empty result list is treated exactly like a cache
miss — the handlers' truthiness test `if cached:` skips it — so the
provider is invoked again and its result (empty included: instantiate
`fresh` with the empty list to see the empty sequence being written)
is cached anew; a cached empty sequence is never served. -/
theorem empty_search_cache_miss :
    ∀ (store : CacheStore (Nat × List Char) (List TrackItem)) (uid : Nat)
      (query : List Char) (now : Nat) (fresh : List TrackItem),
      (cacheGet store (searchKey uid query) now = some [] →
        searchCacheStep store uid query now fresh =
          (fresh, true,
            cacheSet store (searchKey uid query) fresh now SEARCH_CACHE_TTL)) ∧
      (cacheGet store (searchKey uid query) now = none →
        searchCacheStep store uid query now fresh =
          (fresh, true,
            cacheSet store (searchKey uid query) fresh now SEARCH_CACHE_TTL)) := by
  intro store uid query now fresh
  constructor
  · intro h
    simp [searchCacheStep, h]
  · intro h
    simp [searchCacheStep, h]

/-- C10 witness: a store holding an unexpired empty result list for the
key still sends the handler to the provider. -/
theorem empty_search_cache_miss_witness :
    cacheGet
        (cacheSet ([] : CacheStore (Nat × List Char) (List TrackItem))
          (searchKey 1 ['q']) [] 0 SEARCH_CACHE_TTL)
        (searchKey 1 ['q']) 10 = some [] ∧
    searchCacheStep
        (cacheSet ([] : CacheStore (Nat × List Char) (List TrackItem))
          (searchKey 1 ['q']) [] 0 SEARCH_CACHE_TTL)
        1 ['q'] 10 [] =
      ([], true,
        cacheSet
          (cacheSet ([] : CacheStore (Nat × List Char) (List TrackItem))
            (searchKey 1 ['q']) [] 0 SEARCH_CACHE_TTL)
          (searchKey 1 ['q']) [] 10 SEARCH_CACHE_TTL) :=
  ⟨by rfl,
    (empty_search_cache_miss
        (cacheSet ([] : CacheStore (Nat × List Char) (List TrackItem))
          (searchKey 1 ['q']) [] 0 SEARCH_CACHE_TTL)
        1 ['q'] 10 []).1 (by rfl)⟩

/-- C1 counterexample: under the schedule in which the first worker
finishes its job before the second begins — the second job arriving
after the first completed — the external fetcher is invoked twice for
the same identifier, not exactly once: the first worker's post-delivery
cleanup has removed the cache entry and the file. -/
theorem dup_fetch_counterexample :
    (raceRun seqSched).shared.fetchCount ≠ 1 := by decide

/-- Advancing one worker preserves the fetch-count bound, for any fixed
contribution of the other worker. -/
theorem workerAdvance_bound (pc : Nat) (sh : SharedState) (bnd : Nat)
    (h : sh.fetchCount ≤ fetchBound pc + bnd) :
    ((workerAdvance pc sh).2).fetchCount ≤
      fetchBound (workerAdvance pc sh).1 + bnd := by
  match pc with
  | 0 =>
      unfold workerAdvance
      rcases sh.dcache with _ | p
      · simp [fetchBound] at h ⊢
        omega
      · by_cases hc : (!p.isEmpty && sh.fileP) = true
        · simp [hc, fetchBound] at h ⊢
          omega
        · simp [hc, fetchBound] at h ⊢
          omega
  | 1 => simpa [workerAdvance, fetchBound] using h
  | 2 => simpa [workerAdvance, fetchBound] using h
  | (n + 3) => simpa [workerAdvance, fetchBound] using h

/-- One scheduler step preserves the fetch-count bound. -/
theorem raceStep_bound (b : Bool) (s : RaceState)
    (h : s.shared.fetchCount ≤ fetchBound s.pc1 + fetchBound s.pc2) :
    (raceStep b s).shared.fetchCount ≤
      fetchBound (raceStep b s).pc1 + fetchBound (raceStep b s).pc2 := by
  rcases b with _ | _
  · simpa [raceStep] using
      workerAdvance_bound s.pc1 s.shared (fetchBound s.pc2) h
  · have h3 := workerAdvance_bound s.pc2 s.shared (fetchBound s.pc1) (by omega)
    simp [raceStep]
    omega

/-- Invariant of the race: the fetch count never exceeds the sum of the
two workers' bounds. -/
theorem raceRun_inv (sched : List Bool) :
    ∀ s : RaceState,
      s.shared.fetchCount ≤ fetchBound s.pc1 + fetchBound s.pc2 →
      (sched.foldl (fun t b => raceStep b t) s).shared.fetchCount ≤
        fetchBound (sched.foldl (fun t b => raceStep b t) s).pc1 +
          fetchBound (sched.foldl (fun t b => raceStep b t) s).pc2 := by
  induction sched with
  | nil => intro s h; simpa using h
  | cons b rest ih =>
      intro s h
      simp only [List.foldl_cons]
      exact ih _ (raceStep_bound b s h)

/-- Each worker contributes at most one to the bound. -/
theorem fetchBound_le_one (pc : Nat) : fetchBound pc ≤ 1 := by
  unfold fetchBound
  by_cases h : 1 ≤ pc <;> simp [h]

/-- C1 (amended): two jobs for the same identifier may each trigger an
external fetch — the code deduplicates only through the download cache.
Under the sequential schedule the fetcher runs twice (the first job's
cleanup deleted the cache entry and the file); it runs once exactly
when the second job's cache check falls between the first job's cache
write and its cleanup; and under every schedule at most two fetches
occur (at most one per job). -/
theorem dup_fetch_amended :
    (raceRun seqSched).shared.fetchCount = 2 ∧
    (raceRun dedupSched).shared.fetchCount = 1 ∧
    ∀ sched : List Bool, (raceRun sched).shared.fetchCount ≤ 2 := by
  refine ⟨by decide, by decide, ?_⟩
  intro sched
  have h := raceRun_inv sched raceInit (by decide)
  have h1 := fetchBound_le_one (sched.foldl (fun t b => raceStep b t) raceInit).pc1
  have h2 := fetchBound_le_one (sched.foldl (fun t b => raceStep b t) raceInit).pc2
  unfold raceRun
  omega

end SpotBot

